import Mathlib

/-!
Verification of the Global Superstore dashboard pipeline (`Task6_dashboard.py`).

The script is a single-file pandas/streamlit dashboard.  We give a shallow
embedding of its load / filter / aggregate pipeline:

* a dataframe row is a `RawRecord` (before date parsing) or `Record` (after);
  pandas' missing values (`NaN` / `NaT`) are modelled by `Option`;
* `pd.read_csv` is modelled by a function `read : CsvPath → Csv` supplied as a
  parameter, and `pd.to_datetime (errors = "coerce")` by a parameter
  `parse : String → Option Int` (dates are modelled as integers);
* column-name normalization (`str.replace(r"\.", " ")`, `str.replace(r"\s+", " ")`,
  `str.strip()`, then renaming `"Sub Category"` to `"Sub-Category"`) is embedded
  character by character;
* `Series.sum` skips missing values, `Series.isin` never matches a missing
  value, and `groupby` drops rows whose grouping key is missing and sorts the
  group keys ascending — all reflected below.
-/

namespace Superstore

/-! ### Column-name normalization (`load_data`, lines 27-30) -/

/-- Whitespace characters matched by the regex class used in
`str.replace(r"\s+", " ", regex=True)` and stripped by `str.strip()`. -/
def wsChar (c : Char) : Bool :=
  c = ' ' || c = '\t' || c = '\n' || c = '\r' || c = Char.ofNat 11 || c = Char.ofNat 12

/-- `str.replace(r"\.", " ", regex=True)`: every literal dot becomes a space. -/
def replaceDots (l : List Char) : List Char :=
  l.map (fun c => if c = '.' then ' ' else c)

/-- `str.replace(r"\s+", " ", regex=True)`: every maximal run of whitespace
characters becomes a single space.  A character that opens a run whose
successor is also whitespace is dropped; the final character of a run is
replaced by a space. -/
def collapseWS : List Char → List Char
  | [] => []
  | [c] => if wsChar c then [' '] else [c]
  | c₁ :: c₂ :: rest =>
    if wsChar c₁ && wsChar c₂ then collapseWS (c₂ :: rest)
    else (if wsChar c₁ then ' ' else c₁) :: collapseWS (c₂ :: rest)

/-- `str.strip()`: remove leading and trailing whitespace. -/
def stripWS (l : List Char) : List Char :=
  (l.dropWhile wsChar).rdropWhile wsChar

/-- The three-step column normalization applied to every column name. -/
def normalizeBase (s : String) : String :=
  ⟨stripWS (collapseWS (replaceDots s.data))⟩

/-- Normalization followed by the rename `"Sub Category" → "Sub-Category"`. -/
def normalizeName (s : String) : String :=
  let t := normalizeBase s
  if t = "Sub Category" then "Sub-Category" else t

/-- Normalize the whole column list (`df.columns = cols; df.rename(...)`). -/
def normalizeCols (cols : List String) : List String :=
  cols.map normalizeName

/-! ### Data model -/

/-- A CSV row as read by `pd.read_csv`: every field may be missing (`NaN`).
Sales and Profit are decimals (modelled by `ℚ`), Order Date is still raw text. -/
structure RawRecord where
  sales : Option ℚ
  profit : Option ℚ
  orderDate : Option String
  region : Option String
  category : Option String
  subCategory : Option String
  customerName : Option String
deriving DecidableEq

/-- A row after `pd.to_datetime` on Order Date (dates modelled as `Int`). -/
structure Record where
  sales : Option ℚ
  profit : Option ℚ
  orderDate : Option Int
  region : Option String
  category : Option String
  subCategory : Option String
  customerName : Option String
deriving DecidableEq

/-- The parsed CSV resource: header columns plus rows. -/
structure Csv where
  columns : List String
  rows : List RawRecord
deriving DecidableEq

/-! ### Loader (`load_data`, lines 10-43) -/

/-- The four candidate locations probed for `superstore.csv`. -/
inductive CsvPath where
  | appFile
  | appDataFile
  | cwdFile
  | cwdDataFile
deriving DecidableEq

/-- Position of a candidate in the probing order. -/
def pathPriority : CsvPath → Nat
  | .appFile => 0
  | .appDataFile => 1
  | .cwdFile => 2
  | .cwdDataFile => 3

/-- The candidate list, in priority order: co-located file, co-located `data/`
subfolder, working-directory file, working-directory `data/` subfolder. -/
def candidates : List CsvPath :=
  [CsvPath.appFile, CsvPath.appDataFile, CsvPath.cwdFile, CsvPath.cwdDataFile]

/-- The `FileNotFoundError` message raised when no candidate exists. -/
def notFoundMsg : String :=
  "Could not find 'superstore.csv'. Place it in the same folder as this app or inside a 'data/' folder in the repo."

/-- The errors `load_data` can raise. -/
inductive LoadError where
  | dataUnavailable (msg : String)
  | schemaError (missing : List String) (found : List String)
deriving DecidableEq

/-- The required column set checked after normalization. -/
def required : List String :=
  ["Sales", "Profit", "Order Date", "Region", "Category", "Sub-Category", "Customer Name"]

/-- `[c for c in required if c not in df.columns]`. -/
def missingCols (cols : List String) : List String :=
  required.filter (fun c => !(cols.contains c))

/-- `df.dropna(subset=["Sales", "Profit"])`. -/
def dropNaSalesProfit (rows : List RawRecord) : List RawRecord :=
  rows.filter (fun r => r.sales.isSome && r.profit.isSome)

/-- `df["Order Date"] = pd.to_datetime(df["Order Date"], errors="coerce")`:
a missing raw value stays missing, an unparseable one becomes missing. -/
def parseOrderDates (parse : String → Option Int) (rows : List RawRecord) : List Record :=
  rows.map (fun r =>
    { sales := r.sales, profit := r.profit, orderDate := r.orderDate.bind parse,
      region := r.region, category := r.category, subCategory := r.subCategory,
      customerName := r.customerName })

/-- `df.dropna(subset=["Order Date"])`. -/
def dropNaOrderDate (rows : List Record) : List Record :=
  rows.filter (fun r => r.orderDate.isSome)

/-- The cleaning stage of `load_data`, in source order: drop rows with missing
Sales or Profit, parse Order Date (unparseable becomes missing), drop rows
with missing Order Date. -/
def cleanRows (parse : String → Option Int) (rows : List RawRecord) : List Record :=
  dropNaOrderDate (parseOrderDates parse (dropNaSalesProfit rows))

/-- `load_data`: probe the candidate paths (first existing one wins), read the
CSV, normalize column names, validate the required columns, clean the rows.
`fs p` tells whether candidate `p` exists; `read p` is the parsed content. -/
def load_data (fs : CsvPath → Bool) (read : CsvPath → Csv)
    (parse : String → Option Int) : Except LoadError (List Record) :=
  match candidates.find? fs with
  | none => .error (.dataUnavailable notFoundMsg)
  | some p =>
    let cols := normalizeCols (read p).columns
    let missing := missingCols cols
    if missing = [] then .ok (cleanRows parse (read p).rows)
    else .error (.schemaError missing cols)

/-! ### Filter stage (lines 54-69) -/

/-- The three multiselect values (`region_filter`, `category_filter`,
`sub_category_filter`). -/
structure FilterSelection where
  regions : List String
  categories : List String
  subCategories : List String
deriving DecidableEq

/-- `Series.isin(sel)` for one cell: a missing value matches nothing. -/
def optIsin (v : Option String) (sel : List String) : Bool :=
  match v with
  | some s => sel.contains s
  | none => false

/-- The sequential filter application of lines 62-69: each `if` tests Python
truthiness of the selection list (non-empty), then keeps rows whose value is
in the selection. -/
def filtered_df (d : List Record) (sel : FilterSelection) : List Record :=
  let d₁ := if sel.regions.isEmpty then d
            else d.filter (fun r => optIsin r.region sel.regions)
  let d₂ := if sel.categories.isEmpty then d₁
            else d₁.filter (fun r => optIsin r.category sel.categories)
  if sel.subCategories.isEmpty then d₂
  else d₂.filter (fun r => optIsin r.subCategory sel.subCategories)

/-- The filter semantics as the specification states it: for each dimension
independently, an empty selection is no constraint, a non-empty one requires
membership; dimensions combine with AND.  (Spec-side definition, to be
compared with `filtered_df`.) -/
def specKeep (sel : FilterSelection) (r : Record) : Bool :=
  (sel.regions.isEmpty || optIsin r.region sel.regions)
  && (sel.categories.isEmpty || optIsin r.category sel.categories)
  && (sel.subCategories.isEmpty || optIsin r.subCategory sel.subCategories)

/-- Code-point lexicographic comparison of character lists: the order Python's
`sorted` uses on strings. -/
def charListLeb : List Char → List Char → Bool
  | [], _ => true
  | _ :: _, [] => false
  | a :: as, b :: bs =>
    if a.val < b.val then true
    else if b.val < a.val then false
    else charListLeb as bs

/-- Code-point lexicographic comparison of strings (Python's `sorted` order). -/
def strLeb (a b : String) : Bool :=
  charListLeb a.data b.data

/-- `sorted(df[col].dropna().unique().tolist())`: the option list offered for
one dimension. -/
def optionList (key : Record → Option String) (d : List Record) : List String :=
  ((d.filterMap key).dedup).insertionSort (fun a b => strLeb a b = true)

/-- The default selection: every option of every dimension selected. -/
def fullSelection (d : List Record) : FilterSelection :=
  { regions := optionList (fun r => r.region) d,
    categories := optionList (fun r => r.category) d,
    subCategories := optionList (fun r => r.subCategory) d }

/-! ### Aggregator (lines 77-114) -/

/-- `Series.sum` over an optional numeric column: missing values are skipped. -/
def sumOpt (f : Record → Option ℚ) (v : List Record) : ℚ :=
  (v.map (fun r => (f r).getD 0)).sum

/-- `filtered_df["Sales"].sum()`. -/
def total_sales (v : List Record) : ℚ :=
  sumOpt (fun r => r.sales) v

/-- `filtered_df["Profit"].sum()`. -/
def total_profit (v : List Record) : ℚ :=
  sumOpt (fun r => r.profit) v

/-- The rows of one group: rows whose key equals `some k` (`groupby` drops
rows with a missing key). -/
def groupRows {κ : Type} [DecidableEq κ] (key : Record → Option κ) (k : κ)
    (v : List Record) : List Record :=
  v.filter (fun r => decide (key r = some k))

/-- The group keys produced by `groupby` on a string column: the distinct
non-missing values, sorted ascending (pandas `groupby(sort=True)` default). -/
def groupKeysStr (key : Record → Option String) (v : List Record) : List String :=
  ((v.filterMap key).dedup).insertionSort (fun a b => strLeb a b = true)

/-- `filtered_df.groupby("Customer Name")["Sales"].sum()
.sort_values("Sales", ascending=False).head(5)`. -/
def top_customers (v : List Record) : List (String × ℚ) :=
  (((groupKeysStr (fun r => r.customerName) v).map
      (fun k => (k, sumOpt (fun r => r.sales) (groupRows (fun r => r.customerName) k v)))).insertionSort
    (fun a b => b.2 ≤ a.2)).take 5

/-- `filtered_df.groupby("Category")[["Sales", "Profit"]].sum()
.sort_values("Sales", ascending=False)`. -/
def category_summary (v : List Record) : List (String × ℚ × ℚ) :=
  ((groupKeysStr (fun r => r.category) v).map
      (fun k => (k, sumOpt (fun r => r.sales) (groupRows (fun r => r.category) k v),
                    sumOpt (fun r => r.profit) (groupRows (fun r => r.category) k v)))).insertionSort
    (fun a b => b.2.1 ≤ a.2.1)

/-- `filtered_df.groupby("Order Date")["Sales"].sum().sort_values("Order Date")`. -/
def sales_time (v : List Record) : List (Int × ℚ) :=
  (((v.filterMap (fun r => r.orderDate)).dedup).map
      (fun k => (k, sumOpt (fun r => r.sales) (groupRows (fun r => r.orderDate) k v)))).insertionSort
    (fun a b => a.1 ≤ b.1)

/-- The aggregates computed for one render cycle. -/
structure SummaryReport where
  totalSales : ℚ
  totalProfit : ℚ
  topCustomers : List (String × ℚ)
  categorySummary : List (String × ℚ × ℚ)
  salesOverTime : List (Int × ℚ)
deriving DecidableEq

/-- All five aggregates of the dashboard, from the filtered view. -/
def mkSummary (v : List Record) : SummaryReport :=
  { totalSales := total_sales v, totalProfit := total_profit v,
    topCustomers := top_customers v, categorySummary := category_summary v,
    salesOverTime := sales_time v }

/-- The warning shown when the filtered view is empty (line 74). -/
def emptyMsg : String :=
  "No data matches the selected filters. Please adjust your selections."

/-- Outcome of one render cycle after filtering. -/
inductive RenderResult where
  | emptyWarning (msg : String)
  | report (r : SummaryReport)
deriving DecidableEq

/-- Lines 73-75: an empty filtered view shows a warning and stops
(`st.warning` then `st.stop()`); otherwise all aggregates are computed. -/
def renderCycle (v : List Record) : RenderResult :=
  if v.isEmpty then .emptyWarning emptyMsg else .report (mkSummary v)

/-! ### Concrete test data (used by witnesses and counterexamples) -/

/-- Scenario record 1 of spec §8: East / Tech / customer A. -/
def recEastTech : Record :=
  ⟨some 100, some 10, some 1, some "East", some "Tech", some "Phones", some "A"⟩

/-- Scenario record 2 of spec §8: West / Tech / customer B. -/
def recWestTech : Record :=
  ⟨some 200, some (-5), some 2, some "West", some "Tech", some "Phones", some "B"⟩

/-- Scenario record 3 of spec §8: East / Furniture / customer A. -/
def recEastFurn : Record :=
  ⟨some 50, some 5, some 1, some "East", some "Furniture", some "Chairs", some "A"⟩

/-- A record whose Sales/Profit/Order Date are present but whose Region,
Category, Sub-Category and Customer Name cells are missing (`NaN`): such a
row survives the cleaning stage untouched. -/
def recNoDims : Record := ⟨some 7, some 1, some 3, none, none, none, none⟩

/-- The three-record dataset of the spec §8 scenario. -/
def scenarioData : List Record := [recEastTech, recWestTech, recEastFurn]

/-- The scenario dataset extended with a record with missing dimension cells. -/
def mixedData : List Record := scenarioData ++ [recNoDims]

/-- A demo date parser: only the text `"d1"` is a parseable date. -/
def parseDemo : String → Option Int :=
  fun s => if s = "d1" then some 100 else none

/-- A CSV using the `"Order.Date"` / `"Sub Category"` header variants, with one
good row, one row with missing Sales, one with an unparseable Order Date and
one with a missing Order Date. -/
def csvGood : Csv :=
  ⟨["Sales", "Profit", "Order.Date", "Region", "Category", "Sub Category", "Customer Name"],
   [⟨some 100, some 10, some "d1", some "East", some "Tech", some "Phones", some "A"⟩,
    ⟨none, some 2, some "d1", some "East", some "Tech", some "Phones", some "B"⟩,
    ⟨some 5, some 2, some "oops", some "East", some "Tech", some "Phones", some "C"⟩,
    ⟨some 5, some 2, none, some "East", some "Tech", some "Phones", some "D"⟩]⟩

/-- A CSV whose header lacks the Region column. -/
def csvNoRegion : Csv :=
  ⟨["Sales", "Profit", "Order Date", "Category", "Sub-Category", "Customer Name"], []⟩

/-- A filesystem on which every candidate path exists. -/
def fsAll : CsvPath → Bool := fun _ => true

/-- A filesystem on which only the working-directory file exists. -/
def fsCwdOnly : CsvPath → Bool := fun p => decide (p = CsvPath.cwdFile)

/-- Reader returning `csvGood` for every path. -/
def readGood : CsvPath → Csv := fun _ => csvGood

/-- Reader returning `csvNoRegion` for every path. -/
def readNoRegion : CsvPath → Csv := fun _ => csvNoRegion

/-! ### Helper lemmas: filter stage -/

lemma ite_filter_eq (b : Bool) (p : Record → Bool) (d : List Record) :
    (if b = true then d else d.filter p) = d.filter (fun r => b || p r) := by
  cases b <;> simp

lemma filtered_df_eq_filter (d : List Record) (sel : FilterSelection) :
    filtered_df d sel = d.filter (specKeep sel) := by
  show (if sel.subCategories.isEmpty = true then _ else _) = _
  rw [ite_filter_eq, ite_filter_eq, ite_filter_eq, List.filter_filter, List.filter_filter]
  apply List.filter_congr
  intro r _
  unfold specKeep
  cases sel.regions.isEmpty <;> cases sel.categories.isEmpty <;>
      cases sel.subCategories.isEmpty <;>
    cases optIsin r.region sel.regions <;> cases optIsin r.category sel.categories <;>
    cases optIsin r.subCategory sel.subCategories <;> rfl

lemma filtered_df_sublist (d : List Record) (sel : FilterSelection) :
    (filtered_df d sel).Sublist d := by
  rw [filtered_df_eq_filter]
  exact List.filter_sublist d

lemma mem_optionList {key : Record → Option String} {d : List Record} {r : Record}
    {x : String} (hr : r ∈ d) (hx : key r = some x) : x ∈ optionList key d := by
  unfold optionList
  rw [List.mem_insertionSort, List.mem_dedup, List.mem_filterMap]
  exact ⟨r, hr, hx⟩

lemma filtered_df_full (d : List Record)
    (hnn : ∀ r ∈ d, r.region.isSome = true ∧ r.category.isSome = true
      ∧ r.subCategory.isSome = true) :
    filtered_df d (fullSelection d) = d := by
  rw [filtered_df_eq_filter]
  apply List.filter_eq_self.mpr
  intro r hr
  obtain ⟨h₁, h₂, h₃⟩ := hnn r hr
  obtain ⟨x, hx⟩ := Option.isSome_iff_exists.mp h₁
  obtain ⟨y, hy⟩ := Option.isSome_iff_exists.mp h₂
  obtain ⟨z, hz⟩ := Option.isSome_iff_exists.mp h₃
  have mx : x ∈ optionList (fun r => r.region) d := mem_optionList hr hx
  have my : y ∈ optionList (fun r => r.category) d := mem_optionList hr hy
  have mz : z ∈ optionList (fun r => r.subCategory) d := mem_optionList hr hz
  simp [specKeep, fullSelection, optIsin, hx, hy, hz, mx, my, mz]

/-! ### Helper lemmas: loader -/

lemma mem_cleanRows {parse : String → Option Int} {rows : List RawRecord} {r : Record}
    (hr : r ∈ cleanRows parse rows) :
    r.sales.isSome = true ∧ r.profit.isSome = true ∧ r.orderDate.isSome = true := by
  unfold cleanRows dropNaOrderDate at hr
  obtain ⟨hmem, hdate⟩ := List.mem_filter.mp hr
  unfold parseOrderDates at hmem
  obtain ⟨r', hr', rfl⟩ := List.mem_map.mp hmem
  unfold dropNaSalesProfit at hr'
  obtain ⟨_, hsp⟩ := List.mem_filter.mp hr'
  rw [Bool.and_eq_true] at hsp
  exact ⟨hsp.1, hsp.2, hdate⟩

lemma missingCols_eq_nil_iff (cols : List String) :
    missingCols cols = [] ↔ ∀ c ∈ required, c ∈ cols := by
  unfold missingCols
  rw [List.filter_eq_nil_iff]
  simp

lemma mem_missingCols (cols : List String) (c : String) :
    c ∈ missingCols cols ↔ c ∈ required ∧ c ∉ cols := by
  unfold missingCols
  rw [List.mem_filter]
  simp

/-! ### Helper lemmas: grouped sums -/

lemma sum_map_ite {ks : List String} {c : String} (x : ℚ) (hnd : ks.Nodup)
    (hc : c ∈ ks) :
    (ks.map (fun k => if c = k then x else 0)).sum = x := by
  induction ks with
  | nil => cases hc
  | cons a ks ih =>
    rcases List.mem_cons.mp hc with h | h
    · subst h
      have hz : (ks.map (fun k => if c = k then x else 0)).sum = 0 := by
        apply List.sum_eq_zero
        intro y hy
        obtain ⟨k, hk, rfl⟩ := List.mem_map.mp hy
        have : c ≠ k := fun e => (List.nodup_cons.mp hnd).1 (e ▸ hk)
        simp [this]
      simp [hz]
    · have hne : c ≠ a := by
        intro e
        exact (List.nodup_cons.mp hnd).1 (e ▸ h)
      simp only [List.map_cons, List.sum_cons, if_neg hne, zero_add]
      exact ih (List.nodup_cons.mp hnd).2 h

lemma grouped_sum (s : Record → ℚ) (key : Record → Option String)
    (v : List Record) (ks : List String) (hnd : ks.Nodup)
    (hcov : ∀ r ∈ v, ∀ c, key r = some c → c ∈ ks) :
    (ks.map (fun k => ((v.filter (fun r => decide (key r = some k))).map s).sum)).sum
      = ((v.filter (fun r => (key r).isSome)).map s).sum := by
  induction v with
  | nil => simp
  | cons r v ih =>
    have hcov' : ∀ r' ∈ v, ∀ c, key r' = some c → c ∈ ks := by
      intro r' hr' c hc
      exact hcov r' (List.mem_cons_of_mem r hr') c hc
    cases hk : key r with
    | none =>
      have hstep : ∀ k, List.filter (fun r' => decide (key r' = some k)) (r :: v)
          = List.filter (fun r' => decide (key r' = some k)) v := by
        intro k
        rw [List.filter_cons]
        simp [hk]
      simp only [hstep]
      rw [List.filter_cons]
      simp only [hk, Option.isSome_none, Bool.false_eq_true, if_false]
      exact ih hcov'
    | some c =>
      have hc : c ∈ ks := hcov r (List.mem_cons_self r v) c hk
      have hstep : ∀ k, ((List.filter (fun r' => decide (key r' = some k)) (r :: v)).map s).sum
          = (if c = k then s r else 0)
            + ((List.filter (fun r' => decide (key r' = some k)) v).map s).sum := by
        intro k
        rw [List.filter_cons]
        by_cases h : c = k
        · subst h
          simp [hk]
        · simp [hk, h]
      calc (ks.map (fun k =>
              ((List.filter (fun r' => decide (key r' = some k)) (r :: v)).map s).sum)).sum
          = (ks.map (fun k => (if c = k then s r else 0)
              + ((List.filter (fun r' => decide (key r' = some k)) v).map s).sum)).sum := by
            exact congrArg List.sum (List.map_congr_left (fun k _ => hstep k))
        _ = (ks.map (fun k => if c = k then s r else 0)).sum
            + (ks.map (fun k =>
                ((List.filter (fun r' => decide (key r' = some k)) v).map s).sum)).sum := by
            exact List.sum_map_add
        _ = s r + ((v.filter (fun r' => (key r').isSome)).map s).sum := by
            rw [sum_map_ite (s r) hnd hc, ih hcov']
        _ = ((List.filter (fun r' => (key r').isSome) (r :: v)).map s).sum := by
            rw [List.filter_cons]
            simp [hk]

lemma total_eq_category_sum (v : List Record)
    (h : ∀ r ∈ v, (r.category).isSome = true) :
    total_sales v = ((category_summary v).map (fun g => g.2.1)).sum := by
  unfold category_summary groupKeysStr
  rw [((List.perm_insertionSort (fun a b : String × ℚ × ℚ => b.2.1 ≤ a.2.1)
      _).map (fun g => g.2.1)).sum_eq]
  rw [List.map_map]
  rw [((List.perm_insertionSort (fun a b : String => strLeb a b = true)
      ((v.filterMap (fun r => r.category)).dedup)).map _).sum_eq]
  have hcov : ∀ r ∈ v, ∀ c, (fun r => r.category) r = some c
      → c ∈ (v.filterMap (fun r => r.category)).dedup := by
    intro r hr c hc
    rw [List.mem_dedup, List.mem_filterMap]
    exact ⟨r, hr, hc⟩
  have hg := grouped_sum (fun r => (r.sales).getD 0) (fun r => r.category) v
    ((v.filterMap (fun r => r.category)).dedup) (List.nodup_dedup _) hcov
  have hfix : v.filter (fun r => (r.category).isSome) = v :=
    List.filter_eq_self.mpr h
  rw [hfix] at hg
  simp only [Function.comp_def]
  unfold total_sales sumOpt groupRows
  exact hg.symm

/-! ### Helper lemmas: top customers and sales over time -/

lemma top_customers_sorted (v : List Record) :
    (top_customers v).length ≤ 5
      ∧ (top_customers v).Pairwise (fun a b => b.2 ≤ a.2) := by
  constructor
  · unfold top_customers
    rw [List.length_take]
    exact min_le_left 5 _
  · unfold top_customers
    letI : IsTotal (String × ℚ) (fun a b => b.2 ≤ a.2) := ⟨fun a b => le_total b.2 a.2⟩
    letI : IsTrans (String × ℚ) (fun a b => b.2 ≤ a.2) :=
      ⟨fun _ _ _ h₁ h₂ => le_trans h₂ h₁⟩
    exact List.Pairwise.sublist (List.take_sublist 5 _)
      (List.sorted_insertionSort (fun a b : String × ℚ => b.2 ≤ a.2) _)

lemma sales_time_strict_mono (v : List Record) :
    ((sales_time v).map Prod.fst).Pairwise (fun a b : Int => a < b) := by
  unfold sales_time
  letI : IsTotal (Int × ℚ) (fun a b => a.1 ≤ b.1) := ⟨fun a b => le_total a.1 b.1⟩
  letI : IsTrans (Int × ℚ) (fun a b => a.1 ≤ b.1) :=
    ⟨fun _ _ _ h₁ h₂ => le_trans h₁ h₂⟩
  have hsorted := List.sorted_insertionSort (fun a b : Int × ℚ => a.1 ≤ b.1)
    (((v.filterMap (fun r => r.orderDate)).dedup).map
      (fun k => (k, sumOpt (fun r => r.sales) (groupRows (fun r => r.orderDate) k v))))
  have hle : ((List.insertionSort (fun a b : Int × ℚ => a.1 ≤ b.1)
      (((v.filterMap (fun r => r.orderDate)).dedup).map
        (fun k => (k, sumOpt (fun r => r.sales)
          (groupRows (fun r => r.orderDate) k v))))).map Prod.fst).Pairwise
      (fun a b : Int => a ≤ b) :=
    List.pairwise_map.mpr hsorted
  have hperm := List.perm_insertionSort (fun a b : Int × ℚ => a.1 ≤ b.1)
    (((v.filterMap (fun r => r.orderDate)).dedup).map
      (fun k => (k, sumOpt (fun r => r.sales) (groupRows (fun r => r.orderDate) k v))))
  have hbase : ((((v.filterMap (fun r => r.orderDate)).dedup).map
      (fun k => (k, sumOpt (fun r => r.sales)
        (groupRows (fun r => r.orderDate) k v)))).map Prod.fst).Nodup := by
    rw [List.map_map]
    have hid : (Prod.fst ∘ fun k : Int => (k, sumOpt (fun r => r.sales)
        (groupRows (fun r => r.orderDate) k v))) = id := rfl
    rw [hid, List.map_id]
    exact List.nodup_dedup _
  have hnodup := (List.Perm.nodup_iff (hperm.map Prod.fst)).mpr hbase
  exact List.Sorted.lt_of_le hle hnodup

/-! ### Helper lemmas: path probing and load dispatch -/

lemma load_data_none {fs : CsvPath → Bool} {read : CsvPath → Csv}
    {parse : String → Option Int} (hnone : candidates.find? fs = none) :
    load_data fs read parse = .error (.dataUnavailable notFoundMsg) := by
  simp only [load_data, hnone]

lemma load_data_found {fs : CsvPath → Bool} {read : CsvPath → Csv}
    {parse : String → Option Int} {p : CsvPath}
    (hfound : candidates.find? fs = some p) :
    load_data fs read parse =
      if missingCols (normalizeCols (read p).columns) = []
      then .ok (cleanRows parse (read p).rows)
      else .error (.schemaError (missingCols (normalizeCols (read p).columns))
        (normalizeCols (read p).columns)) := by
  simp only [load_data, hfound]

lemma find_none_iff (fs : CsvPath → Bool) :
    candidates.find? fs = none ↔ ∀ p ∈ candidates, fs p = false := by
  unfold candidates
  cases h₁ : fs .appFile <;> cases h₂ : fs .appDataFile <;> cases h₃ : fs .cwdFile <;>
      cases h₄ : fs .cwdDataFile <;>
    simp [List.find?_cons, h₁, h₂, h₃, h₄]

lemma find_first {fs : CsvPath → Bool} {p : CsvPath}
    (h : candidates.find? fs = some p) :
    fs p = true ∧ ∀ q ∈ candidates, pathPriority q < pathPriority p → fs q = false := by
  unfold candidates at h ⊢
  cases h₁ : fs .appFile <;> cases h₂ : fs .appDataFile <;> cases h₃ : fs .cwdFile <;>
      cases h₄ : fs .cwdDataFile <;>
    simp only [List.find?_cons, List.find?_nil, h₁, h₂, h₃, h₄, cond_true, cond_false,
      Option.some.injEq, reduceCtorEq] at h <;>
    subst h <;>
    simp [pathPriority, h₁, h₂, h₃, h₄]

/-! ### Helper lemmas: column-name normalization -/

lemma replaceDots_no_dot (l : List Char) : ∀ c ∈ replaceDots l, c ≠ '.' := by
  intro c hc
  obtain ⟨a, _, rfl⟩ := List.mem_map.mp hc
  by_cases h : a = '.' <;> simp [h]

lemma replaceDots_eq_self {l : List Char} (h : ∀ c ∈ l, c ≠ '.') :
    replaceDots l = l := by
  unfold replaceDots
  have hcong : ∀ a ∈ l, (if a = '.' then ' ' else a) = id a := by
    intro a ha
    simp [h a ha]
  rw [List.map_congr_left hcong, List.map_id]

lemma collapseWS_cons_not_ws {c : Char} (h : wsChar c = false) (rest : List Char) :
    collapseWS (c :: rest) = c :: collapseWS rest := by
  cases rest with
  | nil => simp [collapseWS, h]
  | cons d rest => simp [collapseWS, h]

lemma mem_collapseWS (l : List Char) : ∀ c ∈ collapseWS l, c = ' ' ∨ c ∈ l := by
  induction l using collapseWS.induct with
  | case1 =>
    simp [collapseWS]
  | case2 c hc =>
    intro x hx
    rw [collapseWS, if_pos hc] at hx
    simp at hx
    exact Or.inl hx
  | case3 c hc =>
    intro x hx
    rw [collapseWS, if_neg hc] at hx
    simp at hx
    simp [hx]
  | case4 c₁ c₂ rest hws ih =>
    intro x hx
    rw [collapseWS, if_pos hws] at hx
    rcases ih x hx with h | h
    · exact Or.inl h
    · right
      exact List.mem_cons_of_mem c₁ h
  | case5 c₁ c₂ rest hws ih =>
    intro x hx
    rw [collapseWS, if_neg hws] at hx
    rcases List.mem_cons.mp hx with h | h
    · subst h
      by_cases hc : wsChar c₁ = true <;> simp [hc]
    · rcases ih x h with h' | h'
      · exact Or.inl h'
      · right
        exact List.mem_cons_of_mem c₁ h'

lemma collapseWS_ws_space (l : List Char) :
    ∀ c ∈ collapseWS l, wsChar c = true → c = ' ' := by
  induction l using collapseWS.induct with
  | case1 =>
    simp [collapseWS]
  | case2 c hc =>
    intro x hx hwx
    rw [collapseWS, if_pos hc] at hx
    simpa using hx
  | case3 c hc =>
    intro x hx hwx
    rw [collapseWS, if_neg hc] at hx
    simp at hx
    subst hx
    exact absurd hwx hc
  | case4 c₁ c₂ rest hws ih =>
    intro x hx hwx
    rw [collapseWS, if_pos hws] at hx
    exact ih x hx hwx
  | case5 c₁ c₂ rest hws ih =>
    intro x hx hwx
    rw [collapseWS, if_neg hws] at hx
    rcases List.mem_cons.mp hx with h | h
    · subst h
      by_cases hc : wsChar c₁ = true
      · rw [if_pos hc]
      · rw [if_neg hc] at hwx
        exact absurd hwx hc
    · exact ih x h hwx

lemma collapseWS_chain (l : List Char) :
    (collapseWS l).Chain' (fun a b => wsChar a = false ∨ wsChar b = false) := by
  induction l using collapseWS.induct with
  | case1 =>
    simp [collapseWS]
  | case2 c hc =>
    rw [collapseWS, if_pos hc]
    simp
  | case3 c hc =>
    rw [collapseWS, if_neg hc]
    simp
  | case4 c₁ c₂ rest hws ih =>
    rw [collapseWS, if_pos hws]
    exact ih
  | case5 c₁ c₂ rest hws ih =>
    rw [collapseWS, if_neg hws]
    rw [List.chain'_cons']
    refine ⟨?_, ih⟩
    intro y hy
    by_cases hc₁ : wsChar c₁ = true
    · have hc₂ : wsChar c₂ = false := by
        cases h : wsChar c₂
        · rfl
        · refine absurd ?_ hws
          rw [hc₁, h]
          rfl
      right
      rw [collapseWS_cons_not_ws hc₂ rest] at hy
      simp at hy
      rw [← hy]
      exact hc₂
    · left
      rw [if_neg hc₁]
      exact Bool.eq_false_iff.mpr hc₁

lemma collapseWS_eq_self (l : List Char) :
    (∀ c ∈ l, wsChar c = true → c = ' ') →
    l.Chain' (fun a b => wsChar a = false ∨ wsChar b = false) →
    collapseWS l = l := by
  induction l using collapseWS.induct with
  | case1 =>
    intro _ _
    rfl
  | case2 c hc =>
    intro h₁ _
    rw [collapseWS, if_pos hc, h₁ c (List.mem_singleton_self c) hc]
  | case3 c hc =>
    intro _ _
    rw [collapseWS, if_neg hc]
  | case4 c₁ c₂ rest hws ih =>
    intro _ h₂
    exfalso
    have hrel := (List.chain'_cons'.mp h₂).1 c₂ (by simp)
    rw [Bool.and_eq_true] at hws
    rcases hrel with h | h
    · rw [hws.1] at h
      cases h
    · rw [hws.2] at h
      cases h
  | case5 c₁ c₂ rest hws ih =>
    intro h₁ h₂
    rw [collapseWS, if_neg hws]
    have htail : collapseWS (c₂ :: rest) = c₂ :: rest := by
      apply ih
      · intro c hc hwc
        exact h₁ c (List.mem_cons_of_mem c₁ hc) hwc
      · exact (List.chain'_cons'.mp h₂).2
    rw [htail]
    by_cases hc : wsChar c₁ = true
    · rw [if_pos hc, h₁ c₁ (List.mem_cons_self c₁ _) hc]
    · rw [if_neg hc]

lemma dropWhile_dropWhile (p : Char → Bool) (l : List Char) :
    (l.dropWhile p).dropWhile p = l.dropWhile p := by
  induction l with
  | nil => simp
  | cons a l ih =>
    by_cases h : p a = true <;> simp [List.dropWhile_cons, h, ih]

lemma dropWhile_prefix_fix {p : Char → Bool} {l₁ l₂ : List Char}
    (hpre : l₁ <+: l₂) (h : l₂.dropWhile p = l₂) : l₁.dropWhile p = l₁ := by
  cases l₁ with
  | nil => simp
  | cons a t =>
    obtain ⟨r, hr⟩ := hpre
    have hpa : p a = false := by
      cases hpa : p a
      · rfl
      · exfalso
        rw [← hr, List.cons_append, List.dropWhile_cons, if_pos hpa] at h
        have hlen := congrArg List.length h
        rw [List.length_cons] at hlen
        have hle := (List.dropWhile_sublist (l := t ++ r) p).length_le
        omega
    rw [List.dropWhile_cons, hpa]
    simp

lemma rdropWhile_rdropWhile (p : Char → Bool) (l : List Char) :
    (l.rdropWhile p).rdropWhile p = l.rdropWhile p := by
  unfold List.rdropWhile
  rw [List.reverse_reverse, dropWhile_dropWhile]

lemma stripWS_stripWS (l : List Char) : stripWS (stripWS l) = stripWS l := by
  unfold stripWS
  have hu : (l.dropWhile wsChar).dropWhile wsChar = l.dropWhile wsChar :=
    dropWhile_dropWhile _ _
  have hpre := List.rdropWhile_prefix wsChar (l.dropWhile wsChar)
  have h₁ : ((l.dropWhile wsChar).rdropWhile wsChar).dropWhile wsChar
      = (l.dropWhile wsChar).rdropWhile wsChar :=
    dropWhile_prefix_fix hpre hu
  rw [h₁, rdropWhile_rdropWhile]

lemma stripWS_isInfix (l : List Char) : stripWS l <:+: l := by
  unfold stripWS
  obtain ⟨s, hs⟩ := List.dropWhile_suffix (l := l) wsChar
  obtain ⟨t, ht⟩ := List.rdropWhile_prefix wsChar (l.dropWhile wsChar)
  refine ⟨s, t, ?_⟩
  rw [List.append_assoc, ht, hs]

lemma normalizeBase_fix (s : String) :
    normalizeBase (normalizeBase s) = normalizeBase s := by
  unfold normalizeBase
  have hmem : ∀ c ∈ stripWS (collapseWS (replaceDots s.data)),
      c ∈ collapseWS (replaceDots s.data) := fun c hc =>
    ((stripWS_isInfix (collapseWS (replaceDots s.data))).sublist).subset hc
  have hnodot : ∀ c ∈ stripWS (collapseWS (replaceDots s.data)), c ≠ '.' := by
    intro c hc
    rcases mem_collapseWS (replaceDots s.data) c (hmem c hc) with h | h
    · subst h
      decide
    · exact replaceDots_no_dot s.data c h
  have h₁ : replaceDots (stripWS (collapseWS (replaceDots s.data)))
      = stripWS (collapseWS (replaceDots s.data)) :=
    replaceDots_eq_self hnodot
  have hws : ∀ c ∈ stripWS (collapseWS (replaceDots s.data)), wsChar c = true → c = ' ' :=
    fun c hc => collapseWS_ws_space (replaceDots s.data) c (hmem c hc)
  have hch : (stripWS (collapseWS (replaceDots s.data))).Chain'
      (fun a b => wsChar a = false ∨ wsChar b = false) :=
    List.Chain'.infix (collapseWS_chain (replaceDots s.data))
      (stripWS_isInfix (collapseWS (replaceDots s.data)))
  have h₂ : collapseWS (stripWS (collapseWS (replaceDots s.data)))
      = stripWS (collapseWS (replaceDots s.data)) :=
    collapseWS_eq_self _ hws hch
  have h₃ : stripWS (stripWS (collapseWS (replaceDots s.data)))
      = stripWS (collapseWS (replaceDots s.data)) :=
    stripWS_stripWS (collapseWS (replaceDots s.data))
  show String.mk (stripWS (collapseWS (replaceDots (stripWS (collapseWS (replaceDots s.data))))))
      = String.mk (stripWS (collapseWS (replaceDots s.data)))
  rw [h₁, h₂, h₃]

lemma normalizeName_fix (s : String) :
    normalizeName (normalizeName s) = normalizeName s := by
  unfold normalizeName
  by_cases h : normalizeBase s = "Sub Category"
  · rw [if_pos h]
    show (if normalizeBase "Sub-Category" = "Sub Category" then "Sub-Category"
      else normalizeBase "Sub-Category") = "Sub-Category"
    decide
  · rw [if_neg h, normalizeBase_fix, if_neg h]

/-! ### Claim theorems -/

/-- C1: for every input the loader accepts (no `DataUnavailable`, no
`SchemaError`), the returned dataset is exactly the result of the cleaning
stage — drop rows with missing Sales or Profit, then parse Order Date with
unparseable values becoming missing, then drop rows with missing Order
Date — and consequently contains no record with a missing Sales, Profit or
Order Date value. -/
theorem spec_c1_clean_nonnull (fs : CsvPath → Bool) (read : CsvPath → Csv)
    (parse : String → Option Int) (ds : List Record)
    (h : load_data fs read parse = .ok ds) :
    (∃ p, candidates.find? fs = some p ∧ ds = cleanRows parse (read p).rows)
      ∧ ∀ r ∈ ds, r.sales.isSome = true ∧ r.profit.isSome = true
          ∧ r.orderDate.isSome = true := by
  cases hfind : candidates.find? fs with
  | none =>
    rw [load_data_none hfind] at h
    cases h
  | some p =>
    rw [load_data_found hfind] at h
    by_cases hm : missingCols (normalizeCols (read p).columns) = []
    · rw [if_pos hm] at h
      injection h with h'
      subst h'
      exact ⟨⟨p, rfl, rfl⟩, fun r hr => mem_cleanRows hr⟩
    · rw [if_neg hm] at h
      cases h

/-- Witness for C1: a concrete CSV with one clean row, one row with missing
Sales, one with an unparseable Order Date and one with a missing Order Date. -/
theorem spec_c1_clean_nonnull_witness :
    (∃ p, candidates.find? fsAll = some p
        ∧ cleanRows parseDemo csvGood.rows = cleanRows parseDemo (readGood p).rows)
      ∧ ∀ r ∈ cleanRows parseDemo csvGood.rows, r.sales.isSome = true
          ∧ r.profit.isSome = true ∧ r.orderDate.isSome = true :=
  spec_c1_clean_nonnull fsAll readGood parseDemo
    (cleanRows parseDemo csvGood.rows) (by rfl)

/-- C2: the sequentially applied filter of the script equals the spec's
declarative semantics: per dimension, an empty selection is no constraint and
a non-empty one requires membership of the record's value; the three
dimensions combine with AND.  Being a total function, filtering never
fails; selection values absent from the data simply match nothing. -/
theorem spec_c2_filter_semantics (d : List Record) (sel : FilterSelection) :
    filtered_df d sel = d.filter (specKeep sel) :=
  filtered_df_eq_filter d sel

/-- C3: with a CSV found, if some required column is missing after
normalization the loader fails with a `SchemaError` carrying exactly the
missing column names and the full observed column list; if none is missing
this error is never raised. -/
theorem spec_c3_schema_error (fs : CsvPath → Bool) (read : CsvPath → Csv)
    (parse : String → Option Int) (p : CsvPath)
    (hfound : candidates.find? fs = some p) :
    ((∃ c ∈ required, c ∉ normalizeCols (read p).columns) →
        load_data fs read parse
          = .error (.schemaError (missingCols (normalizeCols (read p).columns))
              (normalizeCols (read p).columns)))
      ∧ ((∀ c ∈ required, c ∈ normalizeCols (read p).columns) →
          ∀ m o, load_data fs read parse ≠ .error (.schemaError m o))
      ∧ (∀ c, c ∈ missingCols (normalizeCols (read p).columns)
          ↔ c ∈ required ∧ c ∉ normalizeCols (read p).columns) := by
  refine ⟨?_, ?_, mem_missingCols _⟩
  · intro hex
    obtain ⟨c, hcr, hcn⟩ := hex
    have hne : missingCols (normalizeCols (read p).columns) ≠ [] := by
      intro hnil
      exact hcn ((missingCols_eq_nil_iff _).mp hnil c hcr)
    rw [load_data_found hfound, if_neg hne]
  · intro hall m o
    have hnil : missingCols (normalizeCols (read p).columns) = [] :=
      (missingCols_eq_nil_iff _).mpr hall
    rw [load_data_found hfound, if_pos hnil]
    intro hcon
    cases hcon

/-- Witness for C3: a CSV without the Region column raises a `SchemaError`
listing `"Region"` and the observed columns. -/
theorem spec_c3_schema_error_witness :
    load_data fsAll readNoRegion parseDemo
      = .error (.schemaError (missingCols (normalizeCols csvNoRegion.columns))
          (normalizeCols csvNoRegion.columns)) :=
  (spec_c3_schema_error fsAll readNoRegion parseDemo CsvPath.appFile (by rfl)).1
    ⟨"Region", by decide, by decide⟩

set_option maxRecDepth 40000 in
/-- C4: exactly four candidate locations are probed in priority order; the
first existing one is read; the loader fails with `DataUnavailable` if and
only if none exists, and the message names `superstore.csv` and the `data/`
folder placement. -/
theorem spec_c4_probe (fs : CsvPath → Bool) (read : CsvPath → Csv)
    (parse : String → Option Int) :
    candidates = [CsvPath.appFile, CsvPath.appDataFile, CsvPath.cwdFile,
        CsvPath.cwdDataFile]
      ∧ (load_data fs read parse = .error (.dataUnavailable notFoundMsg)
          ↔ ∀ p ∈ candidates, fs p = false)
      ∧ (∀ p, candidates.find? fs = some p →
          fs p = true ∧ ∀ q ∈ candidates, pathPriority q < pathPriority p
            → fs q = false)
      ∧ "superstore.csv".data <:+: notFoundMsg.data
      ∧ "data/".data <:+: notFoundMsg.data := by
  refine ⟨rfl, ?_, fun p hp => find_first hp, by decide, by decide⟩
  constructor
  · intro h
    rw [← find_none_iff]
    cases hfind : candidates.find? fs with
    | none => rfl
    | some p =>
      rw [load_data_found hfind] at h
      by_cases hm : missingCols (normalizeCols (read p).columns) = []
      · rw [if_pos hm] at h
        cases h
      · rw [if_neg hm] at h
        simp at h
  · intro hall
    rw [load_data_none ((find_none_iff fs).mpr hall)]

/-- Witness for C4: on a filesystem where only the working-directory file
exists, the probe picks it and every higher-priority candidate is absent. -/
theorem spec_c4_probe_witness :
    fsCwdOnly CsvPath.cwdFile = true
      ∧ ∀ q ∈ candidates, pathPriority q < pathPriority CsvPath.cwdFile
          → fsCwdOnly q = false :=
  (spec_c4_probe fsCwdOnly readGood parseDemo).2.2.1 CsvPath.cwdFile (by rfl)

/-- C5 (amended): the filtered view is always an order-preserving subsequence
of the dataset; and provided every record has non-missing Region, Category
and Sub-Category values, filtering with all three selection sets equal to
their full option sets returns the dataset unchanged.  (The unamended claim
fails when a dimension cell is missing, see the counterexample.) -/
theorem spec_c5_subset_full (d : List Record) (sel : FilterSelection) :
    (filtered_df d sel).Sublist d
      ∧ ((∀ r ∈ d, r.region.isSome = true ∧ r.category.isSome = true
            ∧ r.subCategory.isSome = true) →
          filtered_df d (fullSelection d) = d) :=
  ⟨filtered_df_sublist d sel, fun hnn => filtered_df_full d hnn⟩

/-- Counterexample to C5 as stated: `mixedData` contains a record whose
Region/Category/Sub-Category cells are missing; the full option sets are the
distinct non-missing values, so the full selection is non-empty and
`Series.isin` drops that record. -/
theorem spec_c5_counterexample :
    filtered_df mixedData (fullSelection mixedData) ≠ mixedData := by
  set_option maxHeartbeats 2000000 in decide

/-- Witness for C5: the subsequence part at the dataset containing a record
with missing dimension cells, and the full-selection equality (with its
non-null hypothesis discharged) on the spec §8 scenario dataset. -/
theorem spec_c5_subset_full_witness :
    (filtered_df mixedData ⟨["East"], [], []⟩).Sublist mixedData
      ∧ (∀ r ∈ scenarioData, r.region.isSome = true ∧ r.category.isSome = true
          ∧ r.subCategory.isSome = true)
      ∧ filtered_df scenarioData (fullSelection scenarioData) = scenarioData :=
  ⟨(spec_c5_subset_full mixedData ⟨["East"], [], []⟩).1, by decide,
    (spec_c5_subset_full scenarioData ⟨["East"], [], []⟩).2 (by decide)⟩

/-- C6 (amended): provided every record of the filtered view has a
non-missing Category, the Total Sales aggregate equals the sum of the
per-category Sales sums of the Category Summary.  (The unamended claim fails
when a record's Category is missing: `groupby` drops such rows while the
total keeps them, see the counterexample.) -/
theorem spec_c6_total_eq_category (v : List Record)
    (h : ∀ r ∈ v, (r.category).isSome = true) :
    total_sales v = ((category_summary v).map (fun g => g.2.1)).sum :=
  total_eq_category_sum v h

/-- Counterexample to C6 as stated: a single record with Sales 7 and a
missing Category contributes to Total Sales but to no category group. -/
theorem spec_c6_counterexample :
    total_sales [recNoDims]
      ≠ ((category_summary [recNoDims]).map (fun g => g.2.1)).sum := by
  simp [total_sales, sumOpt, category_summary, groupKeysStr, recNoDims,
    List.insertionSort]

/-- Witness for C6 on the spec §8 scenario dataset. -/
theorem spec_c6_total_eq_category_witness :
    (∀ r ∈ scenarioData, (r.category).isSome = true)
      ∧ total_sales scenarioData
          = ((category_summary scenarioData).map (fun g => g.2.1)).sum :=
  ⟨by decide, spec_c6_total_eq_category scenarioData (by decide)⟩

/-- C7: the Top-5 Customers output — group by Customer Name, sum Sales,
sort descending by summed Sales, take 5 (its definition) — has length at
most 5 and pairwise non-increasing summed Sales. -/
theorem spec_c7_top_customers (v : List Record) :
    (top_customers v).length ≤ 5
      ∧ (top_customers v).Pairwise (fun a b => b.2 ≤ a.2) :=
  top_customers_sorted v

set_option maxRecDepth 40000 in
/-- C8: an empty filtered view yields exactly the warning path (whose message
tells the user to adjust the selections) and no report; a non-empty view
yields the full summary report with all five aggregates. -/
theorem spec_c8_empty_result (v : List Record) :
    (renderCycle v = .emptyWarning emptyMsg ↔ v = [])
      ∧ (v ≠ [] → renderCycle v = .report (mkSummary v))
      ∧ "adjust".data <:+: emptyMsg.data := by
  refine ⟨⟨?_, ?_⟩, ?_, by decide⟩
  · intro h
    cases v with
    | nil => rfl
    | cons r v => simp [renderCycle] at h
  · intro h
    subst h
    rfl
  · intro h
    cases v with
    | nil => exact absurd rfl h
    | cons r v => rfl

/-- Witness for C8 at a concrete non-empty view. -/
theorem spec_c8_empty_result_witness :
    [recEastTech] ≠ []
      ∧ renderCycle [recEastTech] = .report (mkSummary [recEastTech]) :=
  ⟨by decide, (spec_c8_empty_result [recEastTech]).2.1 (by decide)⟩

/-- C9: the column-name normalization (dots to spaces, whitespace runs to a
single space, strip, then the `"Sub Category"` rename) is idempotent on
column-name lists. -/
theorem spec_c9_normalize_idempotent (cols : List String) :
    normalizeCols (normalizeCols cols) = normalizeCols cols := by
  unfold normalizeCols
  rw [List.map_map]
  have h : ∀ s ∈ cols, (normalizeName ∘ normalizeName) s = normalizeName s := by
    intro s _
    rw [Function.comp_apply, normalizeName_fix]
  rw [List.map_congr_left h]

/-- C10: in Sales Over Time, group keys are the distinct non-missing Order
Dates, so after the ascending sort the date sequence is strictly
increasing. -/
theorem spec_c10_sales_time_strict (v : List Record) :
    ((sales_time v).map Prod.fst).Pairwise (fun a b : Int => a < b) :=
  sales_time_strict_mono v

end Superstore
